import Mathlib

/-!
Verification development for the CodeSage backend
(`backend/parser.py`, `backend/main.py`).

The Python source is shallowly embedded: pure parsing/orchestration logic
becomes Lean functions, external effects (CPython's `ast` parser, the git
clone, the Groq text-generation service, the Firestore record store) become
explicit inputs/outputs of those functions.  Machine-level details that the
code never relies on (floats such as the `temperature` argument) are dropped.
-/

namespace CodeSage

/-! ## Python string primitives

`pyIsSpace` models Python's default `str.strip()` / regex `\s` whitespace
set restricted to ASCII (the only characters the repository's data paths
produce; the Unicode extras are irrelevant here). -/

def pyIsSpace (c : Char) : Bool :=
  c = ' ' || c = '\t' || c = '\n' || c = '\r' || c = '\x0b' || c = '\x0c'

/-- Python `str.strip()` (no arguments): drop whitespace from both ends. -/
def pyStrip (s : String) : String :=
  ⟨((s.data.dropWhile pyIsSpace).reverse.dropWhile pyIsSpace).reverse⟩

/-- Python truthiness of a string: non-empty. -/
def truthyStr (s : String) : Bool := s ≠ ""

/-- Python truthiness of an optional string value (`None` and `""` are falsy);
used for `dict.get(key)` results where the key may be absent or `None`. -/
def truthyOpt : Option String → Bool
  | none => false
  | some s => s ≠ ""

/-- Python `str.startswith(pre)` (character-wise prefix test). -/
def pyStartswith (s pre : String) : Bool := pre.data.isPrefixOf s.data

/-- Python `str.endswith(suffix)` (character-wise suffix test). -/
def pyEndswith (s suffix : String) : Bool := suffix.data.isSuffixOf s.data

/-! ## Construct model

A Python construct dict from `parser.py`.  Method/function dicts carry
`parent_class` and never a `methods` key; class dicts carry `methods` and
never a `parent_class` key.  Key absence and a stored `None` are both
modelled as `none` (Python's `dict.get` cannot tell them apart either).

`MethodRec` is the shape of the entries of a class's denormalized
`methods` list (function/method dicts, which never contain a `methods`
key themselves).  In Python the very same dict objects appear both in the
flat construct list and inside the owning class's `methods` list; the
functional model keeps two copies and every update is applied to both
(see `stage1Construct`). -/

structure MethodRec where
  name : String
  type : String
  line : Nat
  code_snippet : Option String
  parent_class : Option String
  documentation : Option String := none
  deriving DecidableEq, Repr

structure Construct where
  name : String
  type : String
  line : Nat
  code_snippet : Option String
  parent_class : Option String := none
  methods : Option (List MethodRec) := none
  documentation : Option String := none
  file_path : Option String := none
  language : Option String := none
  deriving DecidableEq, Repr

/-- View a method record as the flat-list construct dict it aliases. -/
def MethodRec.toConstruct (m : MethodRec) : Construct :=
  { name := m.name, type := m.type, line := m.line,
    code_snippet := m.code_snippet, parent_class := m.parent_class,
    documentation := m.documentation }

/-! ## Python AST model and `parse_python_file`

CPython's `ast.parse` is an external parser; its output (the module body,
a list of statements) is an input of the embedding.  Each
function/async-function/class statement node carries its name, its
1-based line number, the result of `ast.get_source_segment(code, node)`
(`none` when the segment is unavailable), and its own statement body —
the body is part of the model precisely so that we can state what the
extractor does (and does not do) with nested declarations. -/

inductive PyStmt where
  | funcDef (name : String) (lineno : Nat) (snippet : Option String) (body : List PyStmt)
  | asyncFuncDef (name : String) (lineno : Nat) (snippet : Option String) (body : List PyStmt)
  | classDef (name : String) (lineno : Nat) (snippet : Option String) (body : List PyStmt)
  | other

/-- The inner loop of `parse_python_file` (lines 37–48): the direct
function/async-function children of one class body, as `method` records. -/
def directMethods (cname : String) (body : List PyStmt) : List MethodRec :=
  body.filterMap (fun classNode =>
    match classNode with
    | .funcDef mn ml ms _ =>
        some { name := mn, type := "method", line := ml,
               code_snippet := ms, parent_class := some cname }
    | .asyncFuncDef mn ml ms _ =>
        some { name := mn, type := "method", line := ml,
               code_snippet := ms, parent_class := some cname }
    | _ => none)

/-- `parser.parse_python_file`, lines 17–53: iterate over `tree.body` only.
A top-level function/async-function is appended as a `function` construct.
For a top-level class, the class dict is appended first, then its direct
function/async-function children are appended as `method` constructs and
collected into the class `methods` list (the Python code patches the
class dict in place via `constructs[-len(methods)-1]`; functionally, the
class construct ends up carrying the method list, placed before its
methods in the flat list). -/
def parse_python_file (tree : List PyStmt) : List Construct :=
  tree.foldl (fun constructs node =>
    match node with
    | .funcDef fname lineno snip _ =>
        constructs ++ [{ name := fname, type := "function", line := lineno,
                         code_snippet := snip, parent_class := none }]
    | .asyncFuncDef fname lineno snip _ =>
        constructs ++ [{ name := fname, type := "function", line := lineno,
                         code_snippet := snip, parent_class := none }]
    | .classDef cname lineno snip body =>
        constructs
          ++ [{ name := cname, type := "class", line := lineno,
                code_snippet := snip, methods := some (directMethods cname body) }]
          ++ (directMethods cname body).map MethodRec.toConstruct
    | .other => constructs) []

/-- The per-statement construct contribution actually implemented by
`parse_python_file`: only the top-level statement itself and, for a class,
its direct function/async-function children. -/
def topLevelConstructs : PyStmt → List Construct
  | .funcDef fname lineno snip _ =>
      [{ name := fname, type := "function", line := lineno,
         code_snippet := snip, parent_class := none }]
  | .asyncFuncDef fname lineno snip _ =>
      [{ name := fname, type := "function", line := lineno,
         code_snippet := snip, parent_class := none }]
  | .classDef cname lineno snip body =>
      { name := cname, type := "class", line := lineno,
        code_snippet := snip, methods := some (directMethods cname body) }
        :: (directMethods cname body).map MethodRec.toConstruct
  | .other => []

/-- All declaration names occurring in a Python syntax tree, at any depth. -/
def declNamesDeep : List PyStmt → List String
  | [] => []
  | .funcDef n _ _ b :: rest => n :: (declNamesDeep b ++ declNamesDeep rest)
  | .asyncFuncDef n _ _ b :: rest => n :: (declNamesDeep b ++ declNamesDeep rest)
  | .classDef n _ _ b :: rest => n :: (declNamesDeep b ++ declNamesDeep rest)
  | .other :: rest => declNamesDeep rest

/-! ## A small regex engine with Python `re` semantics

`parse_javascript_file` is written against Python's `re` module with four
concrete patterns.  We embed exactly the regex features those patterns
use — character classes, concatenation, alternation, greedy `*`/`?`/`+`,
and numbered capturing groups — with Python's leftmost, greedy,
backtracking match semantics: `reRun` returns every way the expression can
match a prefix of the input, in Python's backtracking preference order,
and the engine commits to the first entry. -/

inductive RE where
  | eps
  | cls (p : Char → Bool)
  | seq (a b : RE)
  | alt (a b : RE)
  | opt (a : RE)
  | star (a : RE)
  | group (i : Nat) (a : RE)

/-- One way of matching: the remaining input together with the list of
(group index, captured characters) pairs produced so far. -/
abbrev MRes := List (List Char × List (Nat × List Char))

/-- Greedy Kleene star via fuel (each kept iteration consumes at least one
character, so `length + 1` fuel is enough; Python likewise refuses to
repeat an empty-width iteration).  Longer matches come first, matching
Python's greedy preference. -/
def runStar (next : List Char → MRes) : Nat → List Char → MRes
  | 0, s => [(s, [])]
  | fuel + 1, s =>
      ((next s).filter (fun p => p.1.length < s.length)).flatMap
        (fun p => (runStar next fuel p.1).map (fun q => (q.1, p.2 ++ q.2)))
      ++ [(s, [])]

/-- All matches of `r` against a prefix of `s`, in Python's backtracking
preference order. -/
def reRun : RE → List Char → MRes
  | .eps, s => [(s, [])]
  | .cls p, s =>
      match s with
      | [] => []
      | c :: rest => if p c then [(rest, [])] else []
  | .seq a b, s =>
      (reRun a s).flatMap (fun p => (reRun b p.1).map (fun q => (q.1, p.2 ++ q.2)))
  | .alt a b, s => reRun a s ++ reRun b s
  | .opt a, s => reRun a s ++ [(s, [])]
  | .star a, s => runStar (reRun a) (s.length + 1) s
  | .group i a, s =>
      (reRun a s).map (fun p => (p.1, p.2 ++ [(i, s.take (s.length - p.1.length))]))

/-- A single literal character. -/
def RE.lit (c : Char) : RE := .cls (fun x => x = c)

/-- A literal word, character by character. -/
def RE.word (s : String) : RE := s.data.foldr (fun c r => .seq (RE.lit c) r) .eps

/-- Greedy `+`: one occurrence followed by a greedy star. -/
def RE.plus (a : RE) : RE := .seq a (.star a)

/-- Chain a list of expressions in sequence. -/
def RE.chain (rs : List RE) : RE := rs.foldr .seq .eps

/-- One finditer-style match: start offset, matched characters, captures. -/
structure ReMatch where
  start : Nat
  matched : List Char
  caps : List (Nat × List Char)
  deriving Repr

/-- The end offset of a match (Python `match.end()`). -/
def ReMatch.stop (m : ReMatch) : Nat := m.start + m.matched.length

/-- Python `match.group(i)` for our patterns (each group appears once in a
pattern and captures at most once per match; Python keeps the last
capture). -/
def ReMatch.group (m : ReMatch) (i : Nat) : List Char :=
  (((m.caps.filter (fun p => p.1 = i)).map (fun p => p.2)).getLast?).getD []

/-- `re.finditer`: scan left to right; at each offset commit to the
preferred match, emit it, and resume at its end (advancing one character
past a zero-width match, as Python does); on failure advance one
character. -/
def findFrom (r : RE) : Nat → List Char → Nat → List ReMatch
  | 0, _, _ => []
  | _ + 1, [], pos => match (reRun r []).head? with
      | some p => [⟨pos, [], p.2⟩]
      | none => []
  | fuel + 1, s, pos =>
      match (reRun r s).head? with
      | some p =>
          let len := s.length - p.1.length
          ⟨pos, s.take len, p.2⟩ ::
            (if len = 0 then findFrom r fuel (s.drop 1) (pos + 1)
             else findFrom r fuel p.1 (pos + len))
      | none =>
          match s with
          | [] => []
          | _ :: rest => findFrom r fuel rest (pos + 1)

/-- `re.finditer(r, content)` as a list of matches. -/
def findIter (r : RE) (content : List Char) : List ReMatch :=
  findFrom r (content.length + 1) content 0

/-! ## The four patterns of `parse_javascript_file` -/

/-- `[a-zA-Z_$]` -/
def identStartCls (c : Char) : Bool :=
  (('a' ≤ c && c ≤ 'z') || ('A' ≤ c && c ≤ 'Z') || c = '_' || c = '$')

/-- `[a-zA-Z0-9_$]` -/
def identContCls (c : Char) : Bool :=
  identStartCls c || ('0' ≤ c && c ≤ '9')

/-- `[a-zA-Z_$][a-zA-Z0-9_$]*` -/
def identRE : RE := .seq (.cls identStartCls) (.star (.cls identContCls))

/-- `[^{}]*(?:\x7b[^{}]*\x7d[^{}]*)*` — a brace-balanced body with at most
one level of internal nesting, as used in all four patterns. -/
def braceBodyRE : RE :=
  let notBrace : RE := .cls (fun c => !(c = '{' || c = '}'))
  .seq (.star notBrace)
    (.star (RE.chain [RE.lit '{', .star notBrace, RE.lit '}', .star notBrace]))

/-- `\s` (ASCII). -/
def wsRE : RE := .cls pyIsSpace

/-- `class\s+([ident])\s*(?:extends\s+[ident])?\s*\x7b(body)\x7d` -/
def classPatternRE : RE :=
  RE.chain [RE.word "class", RE.plus wsRE, .group 1 identRE, .star wsRE,
            .opt (RE.chain [RE.word "extends", RE.plus wsRE, identRE]),
            .star wsRE, RE.lit '{', .group 2 braceBodyRE, RE.lit '}']

/-- `([ident])\s*\(([^)]*)\)\s*\x7b(body)\x7d` (method pattern, group 1 is
the method name; the parameter list and body are not captured). -/
def methodPatternRE : RE :=
  RE.chain [.group 1 identRE, .star wsRE, RE.lit '(', .star (.cls (fun c => c ≠ ')')),
            RE.lit ')', .star wsRE, RE.lit '{', braceBodyRE, RE.lit '}']

/-- `function\s+([ident])\s*\(([^)]*)\)\s*\x7b(body)\x7d` -/
def functionPatternRE : RE :=
  RE.chain [RE.word "function", RE.plus wsRE, .group 1 identRE, .star wsRE,
            RE.lit '(', .star (.cls (fun c => c ≠ ')')), RE.lit ')',
            .star wsRE, RE.lit '{', .group 2 braceBodyRE, RE.lit '}']

/-- `(const|let|var)\s+([ident])\s*=\s*\(([^)]*)\)\s*=>\s*(\x7b body \x7d|[^;,\n]+)` -/
def arrowFunctionPatternRE : RE :=
  RE.chain [.group 1 (.alt (RE.word "const") (.alt (RE.word "let") (RE.word "var"))),
            RE.plus wsRE, .group 2 identRE, .star wsRE, RE.lit '=', .star wsRE,
            RE.lit '(', .star (.cls (fun c => c ≠ ')')), RE.lit ')', .star wsRE,
            RE.word "=>", .star wsRE,
            .group 3 (.alt (RE.chain [RE.lit '{', braceBodyRE, RE.lit '}'])
                           (RE.plus (.cls (fun c => !(c = ';' || c = ',' || c = '\n')))))]

/-! ## `parse_javascript_file` -/

/-- `content[:pos].count('\n') + 1` -/
def lineAt (content : List Char) (pos : Nat) : Nat :=
  ((content.take pos).filter (fun c => c = '\n')).length + 1

/-- `parser.parse_javascript_file`, lines 55–144: class pattern first
(emitting each class's methods, then the class dict carrying its
denormalized method list), then top-level function declarations and
arrow functions (skipping matches strictly inside a class match), then
deduplication by `(name, type, parent_class)`, first occurrence wins. -/
def parse_javascript_file (contentStr : String) : List Construct :=
  let content := contentStr.data
  let classMatches := findIter classPatternRE content
  let classPart : List Construct := classMatches.flatMap (fun cm =>
    let class_name : String := ⟨cm.group 1⟩
    let class_body : List Char := cm.group 2
    let full_class : String := ⟨cm.matched⟩
    let methods : List MethodRec :=
      (findIter methodPatternRE class_body).filterMap (fun mm =>
        let method_name : String := ⟨mm.group 1⟩
        if method_name ∈ ["constructor", "if", "for", "while", "switch"] then none
        else some { name := method_name, type := "method",
                    line := lineAt content (cm.start + mm.start),
                    code_snippet := some (pyStrip ⟨mm.matched⟩),
                    parent_class := some class_name })
    methods.map MethodRec.toConstruct
      ++ [{ name := class_name, type := "class", line := lineAt content cm.start,
            code_snippet := some (pyStrip full_class), methods := some methods }])
  let insideClass : Nat → Bool := fun mstart =>
    classMatches.any (fun cm => cm.start < mstart && mstart < cm.stop)
  let functionPart : List Construct :=
    (findIter functionPatternRE content).filterMap (fun m =>
      if insideClass m.start then none
      else some { name := ⟨m.group 1⟩, type := "function",
                  line := lineAt content m.start,
                  code_snippet := some (pyStrip ⟨m.matched⟩),
                  parent_class := none })
  let arrowPart : List Construct :=
    (findIter arrowFunctionPatternRE content).filterMap (fun m =>
      if insideClass m.start then none
      else some { name := ⟨m.group 2⟩, type := "function",
                  line := lineAt content m.start,
                  code_snippet := some (pyStrip ⟨m.matched⟩),
                  parent_class := none })
  let constructs := classPart ++ functionPart ++ arrowPart
  (constructs.foldl (fun (acc : List (String × String × Option String) × List Construct) c =>
      let key := (c.name, c.type, c.parent_class)
      if key ∈ acc.1 then acc else (acc.1 ++ [key], acc.2 ++ [c]))
    ([], [])).2

/-! ## `parse_code_file`

The raw file is abstracted as `FileData`: the text it contains (consumed
by the regex-based JavaScript extractor) together with the outcome of
CPython's `ast.parse` on that text (consumed by the Python extractor;
`Except.error` is a raised `SyntaxError`, which `parse_code_file` turns
into `None`).  Reading with `errors='ignore'` cannot fail. -/

structure FileData where
  text : String
  pyTree : Except String (List PyStmt)

structure ParsedFile where
  file_path : String
  language : String
  constructs : List Construct
  deriving DecidableEq, Repr

/-- `parser.parse_code_file`, lines 146–173.  Routing is by file-name
suffix; unmapped extensions and empty extractions give `None`; a raised
extraction error is caught and gives `None`.  The walk hands over bare
file names, so `os.path.basename` is the identity here. -/
def parse_code_file (file_path : String) (d : FileData) : Option ParsedFile :=
  if pyEndswith file_path ".py" then
    match d.pyTree with
    | .error _ => none
    | .ok tree =>
        let all_items := parse_python_file tree
        if all_items.isEmpty then none
        else some { file_path := file_path, language := "python", constructs := all_items }
  else if pyEndswith file_path ".js" || pyEndswith file_path ".jsx" then
    let all_items := parse_javascript_file d.text
    if all_items.isEmpty then none
    else some { file_path := file_path, language := "javascript", constructs := all_items }
  else none

/-! ## The source tree walk (`os.walk` with directory pruning)

`run_full_analysis` (main.py lines 269–275) walks the cloned tree
top-down and prunes `dirs` in place against a fixed denylist before
descending.  `pyWalkDir` yields, for the children of one directory, that
directory's files first and then the contents of each non-denylisted
subdirectory, in order. -/

inductive FSTree where
  | file (name : String) (data : FileData)
  | dir (name : String) (children : List FSTree)

/-- The directory-name denylist of main.py line 271. -/
def skipDirs : List String := [".git", "node_modules", "build", "dist", "__pycache__", ".venv"]

/-- The plain files amongst one directory's children. -/
def dirFilesOf : List FSTree → List (String × FileData)
  | [] => []
  | .file n d :: rest => (n, d) :: dirFilesOf rest
  | .dir _ _ :: rest => dirFilesOf rest

/-- The recursive part of the walk: after the current directory's own
files are yielded, each subdirectory whose name survives the `dirs[:]`
pruning is visited in turn (its files first, then its subdirectories,
recursively); a denylisted subdirectory is skipped before any descent. -/
def pyWalkSubs : List FSTree → List (String × FileData)
  | [] => []
  | .file _ _ :: rest => pyWalkSubs rest
  | .dir n cs :: rest =>
      (if n ∈ skipDirs then [] else dirFilesOf cs ++ pyWalkSubs cs) ++ pyWalkSubs rest

/-- `os.walk` over one directory's children with the in-place pruning of
main.py line 271: the directory's files in listing order, then the
contents of each non-denylisted subdirectory. -/
def pyWalkDir (children : List FSTree) : List (String × FileData) :=
  dirFilesOf children ++ pyWalkSubs children

/-- Recursively remove every denylisted directory (at any depth). -/
def deepPrune : List FSTree → List FSTree
  | [] => []
  | .file n d :: rest => .file n d :: deepPrune rest
  | .dir n cs :: rest =>
      if n ∈ skipDirs then deepPrune rest else .dir n (deepPrune cs) :: deepPrune rest

/-- No denylisted directory occurs anywhere in the forest. -/
def cleanForest : List FSTree → Bool
  | [] => true
  | .file _ _ :: rest => cleanForest rest
  | .dir n cs :: rest => decide (n ∉ skipDirs) && cleanForest cs && cleanForest rest

/-! ## The text-generation service

`groq_client.chat.completions.create` is the only external generation
call.  A call is identified by the single user-message content (the
prompt) and the model name; `max_tokens` is carried along for
completeness (`temperature`/`top_p` are fixed non-integer literals the
claims never touch).  The service either raises (`exn`) or returns a
completion whose `message.content` is an optional string. -/

structure GenCall where
  prompt : String
  model : String
  max_tokens : Nat
  deriving DecidableEq, Repr

inductive GenResult where
  | ok (content : Option String)
  | exn (msg : String)
  deriving DecidableEq, Repr

abbrev GenSvc := GenCall → GenResult

/-- The stage-1 prompt f-string (main.py lines 158–168), verbatim. -/
def docPrompt (language code_snippet : String) : String :=
  "\n    You are an expert programmer writing technical documentation. Based on the following "
    ++ language
    ++ " code, \n    write a concise and clear docstring. The documentation should explain:\n    1. What the code does. 2. Its parameters. 3. What it returns.\n    Format the output as a professional docstring for the language. Do not include the original code.\n\n    Code:\n    ```"
    ++ language ++ "\n    " ++ code_snippet ++ "\n    ```\n    "

/-- `main._generate_doc_for_snippet`, lines 153–184.  An exception from
the call (including a missing `choices[0]`) and a `None`/empty response
both yield the failure placeholder. -/
def generate_doc_for_snippet (svc : GenSvc) (code_snippet language : String) : String :=
  if code_snippet = "" || pyStrip code_snippet = "" then ""
  else
    match svc ⟨docPrompt language code_snippet, "llama-3.1-8b-instant", 500⟩ with
    | .exn _ => "Failed to generate documentation."
    | .ok none => "Failed to generate documentation."
    | .ok (some response) =>
        if truthyStr response then pyStrip response else "Failed to generate documentation."

/-- The deduplicated method-documentation records stage 2 assembles
(`{"name": ..., "documentation": ..., "type": ...}` dicts; the
documentation value is non-empty by the stage-2 truthiness filter). -/
structure MethodDoc where
  name : String
  documentation : String
  type : String
  deriving DecidableEq, Repr

/-- The `methods_summary` block of `_generate_class_summary`
(main.py lines 193–200). -/
def methodsSummaryText (method_docs : List MethodDoc) : String :=
  if method_docs.isEmpty then "No methods found or documented for this class."
  else
    String.intercalate "\n"
      ((method_docs.filter (fun md => truthyStr md.name)).map (fun md =>
        "- Method `" ++ md.name ++ "` (" ++ md.type ++ "): " ++ md.documentation))

/-- The stage-2 prompt f-string (main.py lines 202–221), verbatim. -/
def classPrompt (language class_snippet methods_summary : String) : String :=
  "\n    You are a senior technical writer summarizing a code library. Based on the following "
    ++ language
    ++ " class\x27s source code \n    and the AI-generated documentation for its individual methods, write a high-level summary. \n\n    The summary should:\n    1. Explain the class\x27s purpose and main responsibilities\n    2. Describe how the class fits into the broader codebase\n    3. Provide a simple code example of how to instantiate and use it\n    4. Keep it concise but informative (2-4 paragraphs max)\n\n    Do not repeat the method documentation verbatim; synthesize it into a coherent overview.\n\n    Class Source Code:\n    ```"
    ++ language ++ "\n    " ++ class_snippet
    ++ "\n    ```\n\n    Methods Documentation:\n    " ++ methods_summary ++ "\n    "

/-- `main._generate_class_summary`, lines 186–240. -/
def generate_class_summary (svc : GenSvc) (class_snippet : String)
    (method_docs : List MethodDoc) (language : String) : String :=
  if class_snippet = "" || pyStrip class_snippet = "" then
    "No class code available for summary generation."
  else
    let methods_summary := methodsSummaryText method_docs
    match svc ⟨classPrompt language class_snippet methods_summary, "llama-3.1-8b-instant", 1000⟩ with
    | .exn e => "Failed to generate class summary: " ++ e
    | .ok none => "Failed to generate class summary: Empty response from AI."
    | .ok (some response) =>
        if response = "" || pyStrip response = "" then
          "Failed to generate class summary: Empty response from AI."
        else pyStrip response

/-- `', '.join(stats...['languages'])` (the `['Unknown']` defaults in the
templates never fire: the stats dict always carries the key). -/
structure Stats where
  total_files : Nat
  parsed_files : Nat
  languages : List String
  deriving DecidableEq, Repr

def joinLanguages (stats : Stats) : String := String.intercalate ", " stats.languages

/-- The zero-class template of `_generate_project_readme`
(main.py lines 461–479), verbatim. -/
def basicReadme (project_name : String) (stats : Stats) : String :=
  "# " ++ project_name
    ++ "\n\n        ## Project Overview\n        This project contains "
    ++ toString stats.total_files ++ " files, with " ++ toString stats.parsed_files
    ++ " successfully parsed files.\n\n        ## Tech Stack\n        - **Languages**: "
    ++ joinLanguages stats ++ "\n        - **Files Analyzed**: " ++ toString stats.parsed_files
    ++ " out of " ++ toString stats.total_files
    ++ "\n\n        ## Project Structure\n        The codebase contains various functions and components. Detailed class documentation was not available during analysis.\n\n        ## Getting Started\n        1. Clone the repository\n        2. Install dependencies\n        3. Follow language-specific setup instructions\n        "

/-- `summaries_text` (main.py lines 482–484). -/
def summariesText (class_summaries : List (String × String)) : String :=
  class_summaries.foldl (fun acc p => acc ++ "\n\n**Class: " ++ p.1 ++ "**\n" ++ p.2 ++ "\n") ""

/-- The stage-3 prompt f-string (main.py lines 488–508), verbatim. -/
def readmePrompt (project_name : String) (stats : Stats) (summaries_text : String) : String :=
  "Write a professional README.md file in Markdown format for the following project:\n\n            Project Name: "
    ++ project_name
    ++ "\n\n            Project Statistics:\n            - Total files: "
    ++ toString stats.total_files
    ++ "\n            - Successfully parsed: " ++ toString stats.parsed_files
    ++ "\n            - Languages: " ++ joinLanguages stats
    ++ "\n\n            Key Classes and Components:\n            " ++ summaries_text
    ++ "\n\n            Please create a README with these sections:\n            1. # Project Title\n            2. ## Overview (2-3 sentences about what the project does)\n            3. ## Tech Stack (based on languages found)\n            4. ## Key Components (describe the main classes)\n            5. ## Getting Started (generic setup instructions)\n            6. ## Project Structure (brief overview)\n\n            Keep it professional and concise. Use proper Markdown formatting."

/-- The ordered model-fallback list of `_generate_project_readme`
(main.py lines 514–518). -/
def models_to_try : List String := ["llama-3.1-8b-instant", "mixtral-8x7b-32768", "llama3-8b-8192"]

/-- The model-fallback loop (main.py lines 520–540): first model whose
call neither raises nor returns a `None`/empty/whitespace-only response
wins; its stripped response is returned. -/
def tryModels (svc : GenSvc) (prompt : String) : List String → Option String
  | [] => none
  | m :: rest =>
      match svc ⟨prompt, m, 2000⟩ with
      | .exn _ => tryModels svc prompt rest
      | .ok none => tryModels svc prompt rest
      | .ok (some response) =>
          if truthyStr response && truthyStr (pyStrip response) then some (pyStrip response)
          else tryModels svc prompt rest

/-- The all-models-failed fallback document (main.py lines 550–577),
verbatim: header from the stats, one `###` section per class summary,
fixed tail. -/
def fallbackReadme (project_name : String) (stats : Stats)
    (class_summaries : List (String × String)) : String :=
  (class_summaries.foldl (fun acc p => acc ++ "### " ++ p.1 ++ "\n" ++ p.2 ++ "\n\n")
    ("# " ++ project_name
      ++ "\n\n        ## Overview\n        This project has been automatically analyzed and contains "
      ++ toString stats.parsed_files ++ " parsed files across "
      ++ toString stats.languages.length
      ++ " programming languages.\n\n        ## Tech Stack\n        - **Languages**: "
      ++ joinLanguages stats ++ "\n        - **Total Files**: " ++ toString stats.total_files
      ++ "\n        - **Successfully Parsed**: " ++ toString stats.parsed_files
      ++ "\n\n        ## Key Components\n\n        "))
    ++ "## Getting Started\n\n        1. Clone this repository\n        2. Install the required dependencies for your chosen language\n        3. Review the component documentation above\n        4. Follow standard setup procedures for the identified tech stack\n\n        ## Notes\n        This README was automatically generated based on code analysis. Some sections may need manual updates.\n        "

/-- `main._generate_project_readme`, lines 451–579.  With class
summaries present, try each fallback model in order and return the first
usable stripped response; if all fail, the raised marker exception is
caught and the locally templated fallback document is returned.  With no
class summaries, return the basic template without any call. -/
def generate_project_readme (svc : GenSvc) (project_name : String) (stats : Stats)
    (class_summaries : List (String × String)) : String :=
  if class_summaries.isEmpty then basicReadme project_name stats
  else
    match tryModels svc (readmePrompt project_name stats (summariesText class_summaries))
        models_to_try with
    | some text => text
    | none => fallbackReadme project_name stats class_summaries

/-! ## Stage 1 (construct documentation, main.py lines 281–288)

The flat construct list and the owning class's `methods` list hold the
very same dict objects in Python, so writing `documentation` on a flat
method entry also updates it inside its class's `methods` list.  The
functional model applies the identical update rule to the nested copies,
which reproduces that aliasing for extractor-produced data (every
`methods` entry is also a flat entry with the same snippet). -/

def stage1Method (svc : GenSvc) (language : String) (m : MethodRec) : MethodRec :=
  if truthyOpt m.code_snippet then
    { m with
      documentation := some (generate_doc_for_snippet svc (m.code_snippet.getD "") language) }
  else m

def stage1Construct (svc : GenSvc) (language : String) (c : Construct) : Construct :=
  let c' :=
    if truthyOpt c.code_snippet then
      { c with
        documentation := some (generate_doc_for_snippet svc (c.code_snippet.getD "") language) }
    else c
  { c' with methods := c'.methods.map (fun ms => ms.map (stage1Method svc language)) }

def stage1File (svc : GenSvc) (pf : ParsedFile) : ParsedFile :=
  { pf with constructs := pf.constructs.map (stage1Construct svc pf.language) }

/-! ## Stage 2 (class summaries, main.py lines 300–383) -/

/-- Lines 304–313: flatten all files' constructs, stamping each with its
file path and language.  (In Python the stamping mutates the construct
dicts shared with `analysis_results`; the claims only read the stamped
values through stage 2, which this captures.) -/
def allConstructsOf (files : List ParsedFile) : List Construct :=
  files.flatMap (fun f =>
    f.constructs.map (fun c => { c with file_path := some f.file_path, language := some f.language }))

/-- One iteration of lines 316–320: record the construct under its class
name when it is a class, the name is truthy, and the name is not yet
present. -/
def uniqueClassStep (acc : List (String × Construct)) (c : Construct) :
    List (String × Construct) :=
  if c.type == "class" && c.name ≠ "" && !(acc.any (fun p => p.1 == c.name)) then
    acc ++ [(c.name, c)]
  else acc

/-- Lines 315–320: first class construct per (truthy) class name, in
observation order. -/
def uniqueClassesOf (files : List ParsedFile) : List (String × Construct) :=
  (allConstructsOf files).foldl uniqueClassStep []

/-- Lines 329–339 ("Method 1"): method/function constructs whose
`parent_class` equals the class name and whose documentation is truthy. -/
def methodsFromParent (all_constructs : List Construct) (class_name : String) : List MethodDoc :=
  all_constructs.filterMap (fun c =>
    if (c.type == "method" || c.type == "function")
        && c.parent_class == some class_name && truthyOpt c.documentation then
      some ⟨c.name, c.documentation.getD "", c.type⟩
    else none)

/-- Lines 341–351 ("Method 2"): entries of the class's denormalized
`methods` list with truthy documentation. -/
def methodsFromList (class_construct : Construct) : List MethodDoc :=
  match class_construct.methods with
  | none => []
  | some ms => ms.filterMap (fun m =>
      if truthyOpt m.documentation then some ⟨m.name, m.documentation.getD "", m.type⟩ else none)

/-- One iteration of the dedup loop (lines 356–360): skip the record if
its name is in the seen set, otherwise extend the seen set and keep it. -/
def dedupStep (acc : List String × List MethodDoc) (m : MethodDoc) :
    List String × List MethodDoc :=
  if m.name ∈ acc.1 then acc else (acc.1 ++ [m.name], acc.2 ++ [m])

/-- Lines 353–362: deduplicate by method name, first occurrence wins. -/
def dedupMethods (ms : List MethodDoc) : List MethodDoc :=
  (ms.foldl dedupStep ([], [])).2

/-- The full gathered-and-deduplicated method list for one class. -/
def methodsForClass (all_constructs : List Construct) (class_name : String)
    (class_construct : Construct) : List MethodDoc :=
  dedupMethods (methodsFromParent all_constructs class_name ++ methodsFromList class_construct)

/-- The summary text stage 2 computes for one class (main.py lines
366–372). -/
def classSummaryFor (svc : GenSvc) (files : List ParsedFile) (class_name : String)
    (class_construct : Construct) : String :=
  generate_class_summary svc (class_construct.code_snippet.getD "")
    (methodsForClass (allConstructsOf files) class_name class_construct)
    (class_construct.language.getD "python")

/-- The per-class store decision of lines 366–381: the class snippet must
be truthy, and the generated summary must be truthy and must not start
with `"Failed to generate"`; otherwise nothing is stored for the class. -/
def classSummaryEntry (svc : GenSvc) (files : List ParsedFile)
    (p : String × Construct) : Option (String × String) :=
  if truthyOpt p.2.code_snippet then
    let summary := classSummaryFor svc files p.1 p.2
    if truthyStr summary && !(pyStartswith summary "Failed to generate") then
      some (p.1, summary)
    else none
  else none

/-- Appending (or not) one class's entry to the summaries dict. -/
def stage2Step (svc : GenSvc) (files : List ParsedFile)
    (class_summaries : List (String × String)) (p : String × Construct) :
    List (String × String) :=
  match classSummaryEntry svc files p with
  | some entry => class_summaries ++ [entry]
  | none => class_summaries

/-- Lines 324–383: the `class_summaries` dict (as an insertion-ordered
association list; keys are unique because `uniqueClassesOf` is). -/
def stage2Summaries (svc : GenSvc) (files : List ParsedFile) : List (String × String) :=
  (uniqueClassesOf files).foldl (stage2Step svc files) []

/-- Python dict lookup over the insertion-ordered association lists that
model the dicts (keys are unique wherever this is used). -/
def lookupA {α : Type} (l : List (String × α)) (key : String) : Option α :=
  (l.find? (fun p => p.1 == key)).map (fun p => p.2)

/-! ## `run_full_analysis` (main.py lines 242–422) and the status machine -/

/-- The outcome of `git.Repo.clone_from`: the cloned working tree, a
`git.exc.GitCommandError`, or any other exception. -/
inductive CloneResult where
  | ok (root : List FSTree)
  | gitError (msg : String)
  | otherError (msg : String)

/-- The `analysis_data` document of main.py lines 395–401 (minus the
wall-clock `analyzed_at` timestamp). -/
structure AnalysisData where
  files : List ParsedFile
  class_summaries : List (String × String)
  readme_content : String
  stats : Stats

/-- What one background run writes: the ordered `status` updates on the
project record, and the analysis document stored at the project's
analysis/latest sub-document (none when the run failed before storing).
Persistence writes themselves are modelled as succeeding;
`PersistenceFailure` is outside this model's scope. -/
structure RunOutput where
  statusWrites : List String
  analysisWrite : Option AnalysisData

/-- Python-set insertion for the observed-language set (modelled as an
insertion-ordered duplicate-free list; Python's `set` iteration order is
unspecified, so theorems about it only use membership). -/
def setAdd (l : List String) (x : String) : List String := if x ∈ l then l else l ++ [x]

/-- One iteration of the file loop (main.py lines 273–296): count the
file, parse it, and on success run stage 1 over its constructs, append
it, and update `parsed_files` and the language set.  `parse_code_file`
catches its own exceptions, so the `except: continue` arm is dead. -/
def walkStep (svc : GenSvc) (acc : List ParsedFile × Stats) (f : String × FileData) :
    List ParsedFile × Stats :=
  let stats := { acc.2 with total_files := acc.2.total_files + 1 }
  match parse_code_file f.1 f.2 with
  | none => (acc.1, stats)
  | some parsed_data =>
      let parsed_data := stage1File svc parsed_data
      (acc.1 ++ [parsed_data],
       { stats with parsed_files := stats.parsed_files + 1,
                    languages := setAdd stats.languages parsed_data.language })

/-- `main.run_full_analysis`, lines 242–422, for an existing project.
Sets `"analyzing"`; a clone failure (git or otherwise) is caught and sets
`"failed"`; otherwise the walk, the three stages and the persistence
writes run to completion and the run sets `"completed"`.  (The generation
helpers catch their own exceptions and `parse_code_file` returns `None`
on extraction failure, so no exception escapes the happy path.) -/
def run_full_analysis (svc : GenSvc) (project_name : String) (clone : CloneResult) : RunOutput :=
  match clone with
  | .gitError _ => ⟨["analyzing", "failed"], none⟩
  | .otherError _ => ⟨["analyzing", "failed"], none⟩
  | .ok root =>
      let res := (pyWalkDir root).foldl (walkStep svc) ([], ⟨0, 0, []⟩)
      let analysis_results := res.1
      let project_stats := res.2
      let class_summaries := stage2Summaries svc analysis_results
      let readme_content :=
        if class_summaries.isEmpty then
          "# " ++ project_name ++ "\n\nNo classes were found to generate a detailed README."
        else generate_project_readme svc project_name project_stats class_summaries
      ⟨["analyzing", "completed"],
       some ⟨analysis_results, class_summaries, readme_content, project_stats⟩⟩

/-- The project record, as far as `analyze_project` reads it. -/
structure ProjectDoc where
  name : String
  owner_uid : String
  github_url : String

/-- `main.analyze_project`, lines 424–449: 404 when the project is
missing, 403 when not owned by the caller; otherwise synchronously write
`"queued"` and schedule the background run (the boolean).  The actual run
is `run_full_analysis`; FastAPI executes it after the response. -/
def analyze_project (project : Option ProjectDoc) (caller_uid : String) :
    Except Nat (List String × Bool) :=
  match project with
  | none => .error 404
  | some p =>
      if p.owner_uid ≠ caller_uid then .error 403
      else .ok (["queued"], true)

/-! ## Generic helper lemmas -/

theorem foldl_append_eq {α β : Type} (g : α → List β) (step : List β → α → List β)
    (hstep : ∀ acc x, step acc x = acc ++ g x) :
    ∀ (l : List α) (acc : List β), l.foldl step acc = acc ++ l.flatMap g := by
  intro l
  induction l with
  | nil => intro acc; simp
  | cons x xs ih =>
      intro acc
      rw [List.foldl_cons, hstep, ih, List.flatMap_cons, List.append_assoc]

/-! ## C1 -/

/-- A file with a function nested inside a function: the nested
declaration is present in the syntax tree at depth 2. -/
def c1NestedTree : List PyStmt :=
  [.funcDef "outer" 1 (some "def outer():\n    def inner():\n        pass")
     [.funcDef "inner" 2 (some "def inner():\n        pass") []]]

/-- C1, counterexample: `inner` is a function declaration nested inside
the function `outer`, so it occurs in the syntax tree (at nesting depth
2), yet `parse_python_file` emits no construct named `inner` — the
extractor does not emit constructs for declarations at arbitrary nesting
depth. -/
theorem c1_counterexample :
    "inner" ∈ declNamesDeep c1NestedTree ∧
    (parse_python_file c1NestedTree).all (fun c => c.name ≠ "inner") = true := by
  refine ⟨?_, by rfl⟩
  simp [declNamesDeep, c1NestedTree]

/-- C1, amended: `parse_python_file` emits constructs exactly for the
top-level declarations of the module and, for each top-level class, that
class and its direct function/async-function children; declarations at
deeper nesting levels (functions inside functions, classes inside
classes, declarations inside method bodies) contribute nothing. -/
theorem c1_top_level_only (tree : List PyStmt) :
    parse_python_file tree = tree.flatMap topLevelConstructs := by
  rw [parse_python_file]
  rw [foldl_append_eq topLevelConstructs _ ?_ tree []]
  · simp
  · intro acc node
    cases node <;> simp [topLevelConstructs]

/-! ## C7 -/

/-- C7: for an analysis request on an existing project owned by the
caller, the endpoint synchronously writes `"queued"` and schedules the
background run; every background run writes `"analyzing"` first and then
exactly one terminal status, `"completed"` or `"failed"`, with no status
write after it. -/
theorem c7_status_machine (project : ProjectDoc) (caller_uid : String)
    (howner : project.owner_uid = caller_uid) :
    analyze_project (some project) caller_uid = .ok (["queued"], true) ∧
    ∀ (svc : GenSvc) (project_name : String) (clone : CloneResult),
      ∃ t, (run_full_analysis svc project_name clone).statusWrites = ["analyzing", t] ∧
        (t = "completed" ∨ t = "failed") := by
  constructor
  · simp [analyze_project, howner]
  · intro svc project_name clone
    cases clone with
    | ok root => exact ⟨"completed", rfl, Or.inl rfl⟩
    | gitError m => exact ⟨"failed", rfl, Or.inr rfl⟩
    | otherError m => exact ⟨"failed", rfl, Or.inr rfl⟩

/-- C7 witness at a concrete owned project. -/
theorem c7_status_machine_witness :
    analyze_project (some ⟨"proj", "uid-1", "url"⟩) "uid-1" = .ok (["queued"], true) :=
  (c7_status_machine ⟨"proj", "uid-1", "url"⟩ "uid-1" rfl).1

/-! ## C8 -/

theorem stage1Method_idem (svc : GenSvc) (language : String) (m : MethodRec) :
    stage1Method svc language (stage1Method svc language m) = stage1Method svc language m := by
  cases m with
  | mk nm ty ln sn pc doc =>
      by_cases h : truthyOpt sn
      · simp [stage1Method, h]
      · simp [stage1Method, h]

theorem stage1Construct_idem (svc : GenSvc) (language : String) (c : Construct) :
    stage1Construct svc language (stage1Construct svc language c) =
      stage1Construct svc language c := by
  have hm : ∀ ms : List MethodRec,
      (ms.map (stage1Method svc language)).map (stage1Method svc language)
        = ms.map (stage1Method svc language) := by
    intro ms
    induction ms with
    | nil => rfl
    | cons m rest ih => simp [stage1Method_idem, ih]
  cases c with
  | mk nm ty ln sn pc ms doc fp lg =>
      by_cases h : truthyOpt sn
      · cases ms with
        | none => simp [stage1Construct, h]
        | some l => simp [stage1Construct, h, hm l]
      · cases ms with
        | none => simp [stage1Construct, h]
        | some l => simp [stage1Construct, h, hm l]

/-- C8: stage 1 is idempotent.  The generation service is a function of
the call, hence deterministic; documenting a construct does not change
the snippet or language the documentation request is built from, so
running the per-file stage-1 pass a second time overwrites every
`documentation` field with the identical value — on a single parsed file
and over a whole list of parsed files. -/
theorem c8_stage1_idempotent (svc : GenSvc) :
    (∀ pf : ParsedFile, stage1File svc (stage1File svc pf) = stage1File svc pf) ∧
    (∀ files : List ParsedFile,
      (files.map (stage1File svc)).map (stage1File svc) = files.map (stage1File svc)) := by
  have hfile : ∀ pf : ParsedFile, stage1File svc (stage1File svc pf) = stage1File svc pf := by
    intro pf
    cases pf with
    | mk fp lang cs =>
        simp [stage1File, Function.comp, stage1Construct_idem]
  refine ⟨hfile, fun files => ?_⟩
  induction files with
  | nil => rfl
  | cons f rest ih => simp [hfile f, ih]

/-! ## C9 -/

theorem dirFilesOf_deepPrune : ∀ cs : List FSTree, dirFilesOf (deepPrune cs) = dirFilesOf cs := by
  intro cs
  induction cs with
  | nil => simp [deepPrune]
  | cons t rest ih =>
      cases t with
      | file n d => simp [deepPrune, dirFilesOf, ih]
      | dir n sub =>
          by_cases h : n ∈ skipDirs
          · simp [deepPrune, h, dirFilesOf, ih]
          · simp [deepPrune, h, dirFilesOf, ih]

theorem pyWalkSubs_deepPrune :
    ∀ (N : Nat) (cs : List FSTree), sizeOf cs ≤ N →
      pyWalkSubs (deepPrune cs) = pyWalkSubs cs := by
  intro N
  induction N with
  | zero =>
      intro cs h
      cases cs with
      | nil => simp [deepPrune]
      | cons t rest =>
          exfalso
          simp only [List.cons.sizeOf_spec] at h
          omega
  | succ N ih =>
      intro cs h
      cases cs with
      | nil => simp [deepPrune]
      | cons t rest =>
          cases t with
          | file n d =>
              have hrest : sizeOf rest ≤ N := by
                simp only [List.cons.sizeOf_spec, FSTree.file.sizeOf_spec] at h
                omega
              simp [deepPrune, pyWalkSubs, ih rest hrest]
          | dir n sub =>
              have hrest : sizeOf rest ≤ N := by
                simp only [List.cons.sizeOf_spec, FSTree.dir.sizeOf_spec] at h
                omega
              have hsub : sizeOf sub ≤ N := by
                simp only [List.cons.sizeOf_spec, FSTree.dir.sizeOf_spec] at h
                omega
              by_cases hn : n ∈ skipDirs
              · simp [deepPrune, hn, pyWalkSubs, ih rest hrest]
              · simp [deepPrune, hn, pyWalkSubs, pyWalkDir, ih rest hrest, ih sub hsub,
                      dirFilesOf_deepPrune]

theorem cleanForest_deepPrune :
    ∀ (N : Nat) (cs : List FSTree), sizeOf cs ≤ N → cleanForest (deepPrune cs) = true := by
  intro N
  induction N with
  | zero =>
      intro cs h
      cases cs with
      | nil => simp [deepPrune, cleanForest]
      | cons t rest =>
          exfalso
          simp only [List.cons.sizeOf_spec] at h
          omega
  | succ N ih =>
      intro cs h
      cases cs with
      | nil => simp [deepPrune, cleanForest]
      | cons t rest =>
          cases t with
          | file n d =>
              have hrest : sizeOf rest ≤ N := by
                simp only [List.cons.sizeOf_spec, FSTree.file.sizeOf_spec] at h
                omega
              simp [deepPrune, cleanForest, ih rest hrest]
          | dir n sub =>
              have hrest : sizeOf rest ≤ N := by
                simp only [List.cons.sizeOf_spec, FSTree.dir.sizeOf_spec] at h
                omega
              have hsub : sizeOf sub ≤ N := by
                simp only [List.cons.sizeOf_spec, FSTree.dir.sizeOf_spec] at h
                omega
              by_cases hn : n ∈ skipDirs
              · simp [deepPrune, hn, ih rest hrest]
              · simp [deepPrune, hn, cleanForest, ih rest hrest, ih sub hsub]

/-- C9: the walk never descends into a denylisted directory.  (1) The
walk output over any tree equals the output over the tree with every
denylisted directory (at any depth) removed, and the remaining tree
contains no denylisted directory — so no file under a denylisted
directory is ever dispatched to an extractor or counted/listed.  (2) At
the run level, dropping a denylisted directory (with all its contents)
from the cloned tree leaves the entire analysis output unchanged. -/
theorem c9_denylist_pruning :
    (∀ cs : List FSTree,
      pyWalkDir cs = pyWalkDir (deepPrune cs) ∧ cleanForest (deepPrune cs) = true) ∧
    (∀ (svc : GenSvc) (project_name dirname : String) (sub rest : List FSTree),
      dirname ∈ skipDirs →
      run_full_analysis svc project_name (.ok (.dir dirname sub :: rest)) =
        run_full_analysis svc project_name (.ok rest)) := by
  constructor
  · intro cs
    constructor
    · simp [pyWalkDir, dirFilesOf_deepPrune, pyWalkSubs_deepPrune (sizeOf cs) cs le_rfl]
    · exact cleanForest_deepPrune (sizeOf cs) cs le_rfl
  · intro svc project_name dirname sub rest hdeny
    have hwalk : pyWalkDir (.dir dirname sub :: rest) = pyWalkDir rest := by
      simp [pyWalkDir, dirFilesOf, pyWalkSubs, hdeny]
    simp only [run_full_analysis, hwalk]

/-- A generation service that always raises, used to instantiate
universally quantified theorems at a concrete point. -/
def svcExn : GenSvc := fun _ => .exn "service down"

/-- C9 witness: a Python file inside a `.git` directory contributes
nothing — the analysis over a tree whose only content is under `.git`
equals the analysis over the empty tree. -/
theorem c9_denylist_pruning_witness :
    run_full_analysis svcExn "proj"
      (.ok [.dir ".git" [.file "hook.py" ⟨"", .ok [.funcDef "hook" 1 (some "def hook(): pass") []]⟩]]) =
      run_full_analysis svcExn "proj" (.ok []) :=
  c9_denylist_pruning.2 svcExn "proj" ".git"
    [.file "hook.py" ⟨"", .ok [.funcDef "hook" 1 (some "def hook(): pass") []]⟩] []
    (by decide)

/-! ## C10 -/

theorem dedup_fold_mem :
    ∀ (ms : List MethodDoc) (acc : List String × List MethodDoc) (x : MethodDoc),
      x ∈ (ms.foldl dedupStep acc).2 → x ∈ acc.2 ∨ x ∈ ms := by
  intro ms
  induction ms with
  | nil => intro acc x h; exact Or.inl h
  | cons m rest ih =>
      intro acc x h
      rw [List.foldl_cons] at h
      rcases ih _ x h with h' | h'
      · unfold dedupStep at h'
        by_cases hm : m.name ∈ acc.1
        · rw [if_pos hm] at h'
          exact Or.inl h'
        · rw [if_neg hm] at h'
          simp only [List.mem_append, List.mem_singleton] at h'
          rcases h' with h' | h'
          · exact Or.inl h'
          · exact Or.inr (h' ▸ List.mem_cons_self m rest)
      · exact Or.inr (List.mem_cons_of_mem m h')

theorem dedupMethods_subset (ms : List MethodDoc) (x : MethodDoc)
    (h : x ∈ dedupMethods ms) : x ∈ ms := by
  rcases dedup_fold_mem ms ([], []) x h with h' | h'
  · exact absurd h' (List.not_mem_nil x)
  · exact h'

/-- Every record gathered into a class's method list traces back to one
of the two stage-2 sources, each of which requires truthy
documentation. -/
theorem methodsForClass_sources (all_constructs : List Construct) (class_name : String)
    (class_construct : Construct) (md : MethodDoc)
    (hmem : md ∈ methodsForClass all_constructs class_name class_construct) :
    (∃ c ∈ all_constructs,
        ((c.type == "method" || c.type == "function")
          && c.parent_class == some class_name && truthyOpt c.documentation) = true
        ∧ c.name = md.name) ∨
    (∃ m ∈ class_construct.methods.getD [],
        truthyOpt m.documentation = true ∧ m.name = md.name) := by
  have hin := dedupMethods_subset _ _ hmem
  rcases List.mem_append.mp hin with hsrc | hsrc
  · left
    rcases List.mem_filterMap.mp hsrc with ⟨c, hc, hfc⟩
    refine ⟨c, hc, ?_, ?_⟩
    · by_contra hcond
      rw [if_neg hcond] at hfc
      exact Option.noConfusion hfc
    · by_cases hcond :
        ((c.type == "method" || c.type == "function")
          && c.parent_class == some class_name && truthyOpt c.documentation) = true
      · rw [if_pos hcond] at hfc
        cases hfc
        rfl
      · rw [if_neg hcond] at hfc
        exact Option.noConfusion hfc
  · right
    unfold methodsFromList at hsrc
    cases hms : class_construct.methods with
    | none =>
        rw [hms] at hsrc
        exact absurd hsrc (List.not_mem_nil md)
    | some ms =>
        rw [hms] at hsrc
        rcases List.mem_filterMap.mp hsrc with ⟨m, hm, hfm⟩
        refine ⟨m, by simp [hms, hm], ?_, ?_⟩
        · by_contra hcond
          rw [if_neg hcond] at hfm
          exact Option.noConfusion hfm
        · by_cases hcond : truthyOpt m.documentation = true
          · rw [if_pos hcond] at hfm
            cases hfm
            rfl
          · rw [if_neg hcond] at hfm
            exact Option.noConfusion hfm

/-- C10: both stage-2 method sources filter on a truthy `documentation`
value — every record in the gathered method list traces back to a flat
construct or a denormalized `methods` entry with truthy documentation —
and stage 1 leaves the `documentation` of a construct or method record
with a falsy snippet untouched.  Hence a method whose snippet is
empty/missing is never documented in stage 1 and is therefore excluded
from the class gathered method list, even though both sources can see
its name. -/
theorem c10_undocumented_methods_excluded :
    (∀ (all_constructs : List Construct) (class_name : String) (class_construct : Construct)
        (md : MethodDoc), md ∈ methodsForClass all_constructs class_name class_construct →
      (∃ c ∈ all_constructs,
          ((c.type == "method" || c.type == "function")
            && c.parent_class == some class_name && truthyOpt c.documentation) = true
          ∧ c.name = md.name) ∨
      (∃ m ∈ class_construct.methods.getD [],
          truthyOpt m.documentation = true ∧ m.name = md.name)) ∧
    (∀ (svc : GenSvc) (language : String) (c : Construct),
      truthyOpt c.code_snippet = false →
      (stage1Construct svc language c).documentation = c.documentation) ∧
    (∀ (svc : GenSvc) (language : String) (m : MethodRec),
      truthyOpt m.code_snippet = false → stage1Method svc language m = m) := by
  refine ⟨methodsForClass_sources, ?_, ?_⟩
  · intro svc language c h
    cases c with
    | mk nm ty ln sn pc ms doc fp lg => simp [stage1Construct, h]
  · intro svc language m h
    cases m with
    | mk nm ty ln sn pc doc => simp [stage1Method, h]

/-- C10 witness: a method construct with a missing snippet keeps its
(absent) documentation through stage 1. -/
theorem c10_undocumented_methods_excluded_witness :
    (stage1Construct svcExn "python"
      { name := "baz", type := "method", line := 5, code_snippet := none,
        parent_class := some "Bar" }).documentation = none :=
  c10_undocumented_methods_excluded.2.1 svcExn "python"
    { name := "baz", type := "method", line := 5, code_snippet := none,
      parent_class := some "Bar" } (by decide)

/-! ## C6 -/

/-- The method names discoverable for a class via either stage-2 source,
before any documentation filtering: constructs whose `parent_class`
matches, and the entries of the class's denormalized `methods` list. -/
def discoverableMethodNames (all_constructs : List Construct) (class_name : String)
    (class_construct : Construct) : List String :=
  (all_constructs.filterMap (fun c =>
    if (c.type == "method" || c.type == "function") && c.parent_class == some class_name
    then some c.name else none))
  ++ (class_construct.methods.getD []).map (fun m => m.name)

theorem dedup_fold_names :
    ∀ (ms : List MethodDoc) (acc : List String × List MethodDoc),
      acc.1 = acc.2.map (fun m => m.name) → acc.1.Nodup →
      (ms.foldl dedupStep acc).1 = (ms.foldl dedupStep acc).2.map (fun m => m.name) ∧
      (ms.foldl dedupStep acc).1.Nodup := by
  intro ms
  induction ms with
  | nil => intro acc h1 h2; exact ⟨h1, h2⟩
  | cons m rest ih =>
      intro acc h1 h2
      rw [List.foldl_cons]
      by_cases hm : m.name ∈ acc.1
      · have hstep : dedupStep acc m = acc := by
          unfold dedupStep
          rw [if_pos hm]
        rw [hstep]
        exact ih acc h1 h2
      · have hstep : dedupStep acc m = (acc.1 ++ [m.name], acc.2 ++ [m]) := by
          unfold dedupStep
          rw [if_neg hm]
        rw [hstep]
        refine ih _ ?_ ?_
        · simp [h1]
        · simp [List.nodup_append, h2, hm]

theorem dedupMethods_names_nodup (ms : List MethodDoc) :
    ((dedupMethods ms).map (fun m => m.name)).Nodup := by
  have h := dedup_fold_names ms ([], []) rfl List.nodup_nil
  unfold dedupMethods
  rw [← h.1]
  exact h.2

theorem uc_fold_find_some (n : String) :
    ∀ (l : List Construct) (acc : List (String × Construct)) (p : String × Construct),
      acc.find? (fun q => q.1 == n) = some p →
      (l.foldl uniqueClassStep acc).find? (fun q => q.1 == n) = some p := by
  intro l
  induction l with
  | nil => intro acc p h; exact h
  | cons c rest ih =>
      intro acc p h
      rw [List.foldl_cons]
      apply ih
      unfold uniqueClassStep
      by_cases hc : (c.type == "class" && c.name ≠ "" && !(acc.any (fun p => p.1 == c.name))) = true
      · rw [if_pos hc, List.find?_append, h]
        rfl
      · rw [if_neg hc]
        exact h

theorem uc_fold_find_none (n : String) (hn : n ≠ "") :
    ∀ (l : List Construct) (acc : List (String × Construct)),
      acc.find? (fun q => q.1 == n) = none →
      (l.foldl uniqueClassStep acc).find? (fun q => q.1 == n) =
        ((l.filter (fun c => c.type == "class" && c.name == n)).head?).map (fun c => (n, c)) := by
  intro l
  induction l with
  | nil => intro acc h; simpa using h
  | cons c rest ih =>
      intro acc h
      rw [List.foldl_cons]
      by_cases hfilt : (c.type == "class" && c.name == n) = true
      · -- this construct is the first class named `n` in the remaining list
        have hparts := hfilt
        rw [Bool.and_eq_true] at hparts
        obtain ⟨htype, hname0⟩ := hparts
        have hname : c.name = n := eq_of_beq hname0
        have hany_n : (acc.any fun p => p.1 == n) = false := by
          cases hx : (acc.any fun p => p.1 == n) with
          | false => rfl
          | true =>
              rcases List.any_eq_true.mp hx with ⟨p, hp, hpq⟩
              exact absurd hpq (List.find?_eq_none.mp h p hp)
        have hcnne : c.name ≠ "" := by
          rw [hname]
          exact hn
        have hguard :
            (c.type == "class" && c.name ≠ "" && !(acc.any (fun p => p.1 == c.name))) = true := by
          simp [htype, hcnne, hname, hany_n, hn]
        have hstep : uniqueClassStep acc c = acc ++ [(c.name, c)] := by
          unfold uniqueClassStep
          rw [if_pos hguard]
        rw [hstep]
        have hfound : (acc ++ [(c.name, c)]).find? (fun q => q.1 == n) = some (c.name, c) := by
          rw [List.find?_append, h, Option.none_or]
          exact List.find?_cons_of_pos [] hname0
        rw [uc_fold_find_some n rest _ _ hfound, hname]
        simp [List.filter_cons, hfilt]
      · -- not a class named `n`: the accumulator still has no `n` entry
        have hstep : (uniqueClassStep acc c).find? (fun q => q.1 == n) = none := by
          unfold uniqueClassStep
          by_cases hg : (c.type == "class" && c.name ≠ "" && !(acc.any (fun p => p.1 == c.name))) = true
          · rw [if_pos hg, List.find?_append, h]
            have htype : (c.type == "class") = true := by
              have := hg
              rw [Bool.and_eq_true, Bool.and_eq_true] at this
              exact this.1.1
            have hne : (c.name == n) = false := by
              cases hx : (c.name == n) with
              | false => rfl
              | true => exact absurd (by rw [Bool.and_eq_true]; exact ⟨htype, hx⟩) hfilt
            simp [hne]
          · rw [if_neg hg]
            exact h
        rw [ih _ hstep]
        simp [List.filter_cons, hfilt]

/-- C6: (a) the deduplicated method list stage 2 gathers for a class has
pairwise-distinct method names and at most as many entries as there are
distinct method names discoverable via either source (the
`parent_class`-matching constructs and the denormalized `methods` list);
(b) the class construct summarized under a name is the first-observed
class construct with that name. -/
theorem c6_method_gathering :
    (∀ (all_constructs : List Construct) (class_name : String) (class_construct : Construct),
      ((methodsForClass all_constructs class_name class_construct).map (fun m => m.name)).Nodup ∧
      (methodsForClass all_constructs class_name class_construct).length ≤
        (discoverableMethodNames all_constructs class_name class_construct).dedup.length) ∧
    (∀ (files : List ParsedFile) (n : String), n ≠ "" →
      lookupA (uniqueClassesOf files) n =
        ((allConstructsOf files).filter (fun c => c.type == "class" && c.name == n)).head?) := by
  constructor
  · intro all_constructs class_name class_construct
    refine ⟨dedupMethods_names_nodup _, ?_⟩
    have hsub : ((methodsForClass all_constructs class_name class_construct).map (fun m => m.name))
        ⊆ (discoverableMethodNames all_constructs class_name class_construct).dedup := by
      intro s hs
      rcases List.mem_map.mp hs with ⟨md, hmd, hname⟩
      rw [List.mem_dedup]
      rcases methodsForClass_sources all_constructs class_name class_construct md hmd with
        ⟨c, hc, hcond, hcn⟩ | ⟨m, hm, _, hmn⟩
      · apply List.mem_append_left
        apply List.mem_filterMap.mpr
        refine ⟨c, hc, ?_⟩
        have h1 : ((c.type == "method" || c.type == "function")
            && c.parent_class == some class_name) = true := by
          have := Bool.and_eq_true .. ▸ hcond
          exact this.1
        rw [if_pos h1, hcn, hname]
      · apply List.mem_append_right
        apply List.mem_map.mpr
        exact ⟨m, hm, by rw [hmn, hname]⟩
    calc (methodsForClass all_constructs class_name class_construct).length
        = ((methodsForClass all_constructs class_name class_construct).map
            (fun m => m.name)).length := (List.length_map _ _).symm
      _ ≤ _ := ((dedupMethods_names_nodup _).subperm hsub).length_le
  · intro files n hn
    unfold lookupA uniqueClassesOf
    rw [uc_fold_find_none n hn (allConstructsOf files) [] rfl]
    cases ((allConstructsOf files).filter (fun c => c.type == "class" && c.name == n)).head? with
    | none => rfl
    | some c => rfl

/-- Two same-named classes in one file; the first is the one the lookup
returns, and the filter/head? characterization evaluates to it. -/
def c6File : ParsedFile :=
  { file_path := "dup.py", language := "python",
    constructs :=
      [{ name := "Bar", type := "class", line := 1, code_snippet := some "class Bar: pass",
         methods := some [] },
       { name := "Bar", type := "class", line := 9, code_snippet := some "class Bar(Other): pass",
         methods := some [] }] }

/-- C6 witness: at the concrete duplicated-class file, the summarized
class construct for `Bar` is the first-observed one. -/
theorem c6_method_gathering_witness :
    lookupA (uniqueClassesOf [c6File]) "Bar" =
      ((allConstructsOf [c6File]).filter (fun c => c.type == "class" && c.name == "Bar")).head? :=
  c6_method_gathering.2 [c6File] "Bar" (by decide)

/-! ## C2 -/

theorem stage2_fold_eq (svc : GenSvc) (files : List ParsedFile) :
    ∀ (l : List (String × Construct)) (acc : List (String × String)),
      l.foldl (stage2Step svc files) acc = acc ++ l.filterMap (classSummaryEntry svc files) := by
  intro l
  induction l with
  | nil => intro acc; simp
  | cons p rest ih =>
      intro acc
      rw [List.foldl_cons]
      cases hp : classSummaryEntry svc files p with
      | none =>
          have hstep : stage2Step svc files acc p = acc := by
            unfold stage2Step
            rw [hp]
          rw [hstep, ih]
          simp [List.filterMap_cons, hp]
      | some e =>
          have hstep : stage2Step svc files acc p = acc ++ [e] := by
            unfold stage2Step
            rw [hp]
          rw [hstep, ih]
          simp [List.filterMap_cons, hp]

theorem stage2Summaries_eq_filterMap (svc : GenSvc) (files : List ParsedFile) :
    stage2Summaries svc files =
      (uniqueClassesOf files).filterMap (classSummaryEntry svc files) := by
  unfold stage2Summaries
  rw [stage2_fold_eq svc files (uniqueClassesOf files) []]
  simp

theorem uc_fold_keys_nodup :
    ∀ (l : List Construct) (acc : List (String × Construct)),
      (acc.map Prod.fst).Nodup → ((l.foldl uniqueClassStep acc).map Prod.fst).Nodup := by
  intro l
  induction l with
  | nil => intro acc h; exact h
  | cons c rest ih =>
      intro acc h
      rw [List.foldl_cons]
      apply ih
      unfold uniqueClassStep
      by_cases hg : (c.type == "class" && c.name ≠ "" && !(acc.any (fun p => p.1 == c.name))) = true
      · rw [if_pos hg]
        have hnotin : c.name ∉ acc.map Prod.fst := by
          intro hmem
          rcases List.mem_map.mp hmem with ⟨p, hp, hp1⟩
          have hany : acc.any (fun p => p.1 == c.name) = true :=
            List.any_eq_true.mpr ⟨p, hp, by simp [hp1]⟩
          rw [Bool.and_eq_true, hany] at hg
          simpa using hg.2
        simp [List.nodup_append, h, hnotin]
      · rw [if_neg hg]
        exact h

theorem uniqueClassesOf_keys_nodup (files : List ParsedFile) :
    ((uniqueClassesOf files).map Prod.fst).Nodup :=
  uc_fold_keys_nodup (allConstructsOf files) [] List.nodup_nil

theorem find_filterMap_keyed (dec : String × Construct → Option (String × String))
    (hdec : ∀ p q, dec p = some q → q.1 = p.1) :
    ∀ (l : List (String × Construct)), (l.map Prod.fst).Nodup →
      ∀ (nm : String) (c : Construct), (nm, c) ∈ l →
        (l.filterMap dec).find? (fun q => q.1 == nm) = dec (nm, c) := by
  intro l
  induction l with
  | nil => intro _ nm c hmem; exact absurd hmem (List.not_mem_nil _)
  | cons p rest ih =>
      intro hnd nm c hmem
      have hndr : (rest.map Prod.fst).Nodup := (List.nodup_cons.mp hnd).2
      have hp1 : p.1 ∉ rest.map Prod.fst := (List.nodup_cons.mp hnd).1
      rcases List.mem_cons.mp hmem with heq | hmem'
      · subst heq
        cases hd : dec (nm, c) with
        | some q =>
            rw [List.filterMap_cons, hd, List.find?_cons_of_pos]
            have := hdec _ _ hd
            simp [this]
        | none =>
            rw [List.filterMap_cons, hd]
            apply List.find?_eq_none.mpr
            intro q hq hqe
            rcases List.mem_filterMap.mp hq with ⟨p', hp', hdp'⟩
            have hq1 : q.1 = p'.1 := hdec _ _ hdp'
            apply hp1
            have h2 : (nm : String) = p'.1 := by
              have h3 : q.1 = nm := eq_of_beq hqe
              rw [← h3, hq1]
            have hmm : p'.1 ∈ rest.map Prod.fst := List.mem_map.mpr ⟨p', hp', rfl⟩
            show nm ∈ rest.map Prod.fst
            rw [h2]
            exact hmm
      · have hp1n : (p.1 == nm) = false := by
          cases hx : (p.1 == nm) with
          | false => rfl
          | true =>
              exfalso
              apply hp1
              have : nm ∈ rest.map Prod.fst := List.mem_map.mpr ⟨(nm, c), hmem', rfl⟩
              rw [eq_of_beq hx]
              exact this
        cases hd : dec p with
        | some q =>
            rw [List.filterMap_cons, hd]
            rw [List.find?_cons_of_neg]
            · exact ih hndr nm c hmem'
            · rw [hdec _ _ hd]
              simp [hp1n]
        | none =>
            rw [List.filterMap_cons, hd]
            exact ih hndr nm c hmem'

/-- A parsed file with two classes: `NoSnip` has no code snippet, `Fails`
has one (so stage 2 issues a generation call for it). -/
def c2File : ParsedFile :=
  { file_path := "c.py", language := "python",
    constructs :=
      [{ name := "NoSnip", type := "class", line := 1, code_snippet := none,
         methods := some [] },
       { name := "Fails", type := "class", line := 3, code_snippet := some "class Fails: pass",
         methods := some [] }] }

set_option maxRecDepth 8192 in
/-- C2, counterexample: with the generation service raising on every
call, the class with no snippet and the class whose call fails are both
simply absent from `classSummaries` (the mapping is empty) — no
"no summary available" or failure placeholder is recorded for either. -/
theorem c2_counterexample :
    stage2Summaries svcExn [c2File] = [] ∧
    lookupA (stage2Summaries svcExn [c2File]) "NoSnip" = none ∧
    lookupA (stage2Summaries svcExn [c2File]) "Fails" = none := by
  refine ⟨by rfl, ?_, ?_⟩ <;> rfl

/-- C2, amended: for every distinct class name selected for
summarization, a `classSummaries` entry exists only when the class
snippet is truthy and the generated summary is truthy and does not start
with `"Failed to generate"`; a class with an empty/missing snippet, and a
class whose generation call fails (exception or empty response, which
produce a `"Failed to generate..."` string), are silently absent from
`classSummaries` — no placeholder is recorded. -/
theorem c2_no_placeholder_recorded (svc : GenSvc) (files : List ParsedFile)
    (class_name : String) (c : Construct)
    (hmem : (class_name, c) ∈ uniqueClassesOf files) :
    (truthyOpt c.code_snippet = false →
      lookupA (stage2Summaries svc files) class_name = none) ∧
    (truthyOpt c.code_snippet = true →
      (truthyStr (classSummaryFor svc files class_name c) &&
        !(pyStartswith (classSummaryFor svc files class_name c) "Failed to generate")) = false →
      lookupA (stage2Summaries svc files) class_name = none) ∧
    (truthyOpt c.code_snippet = true →
      (truthyStr (classSummaryFor svc files class_name c) &&
        !(pyStartswith (classSummaryFor svc files class_name c) "Failed to generate")) = true →
      lookupA (stage2Summaries svc files) class_name =
        some (classSummaryFor svc files class_name c)) := by
  have hdec : ∀ p q, classSummaryEntry svc files p = some q → q.1 = p.1 := by
    intro p q hq
    unfold classSummaryEntry at hq
    by_cases h1 : truthyOpt p.2.code_snippet = true
    · rw [if_pos h1] at hq
      by_cases h2 : (truthyStr (classSummaryFor svc files p.1 p.2) &&
          !(pyStartswith (classSummaryFor svc files p.1 p.2) "Failed to generate")) = true
      · simp only [h2, if_true] at hq
        cases hq
        rfl
      · simp only [if_neg h2] at hq
        exact Option.noConfusion hq
    · rw [if_neg h1] at hq
      exact Option.noConfusion hq
  have hfind :
      ((uniqueClassesOf files).filterMap (classSummaryEntry svc files)).find?
          (fun q => q.1 == class_name) = classSummaryEntry svc files (class_name, c) :=
    find_filterMap_keyed _ hdec _ (uniqueClassesOf_keys_nodup files) class_name c hmem
  have hlook : lookupA (stage2Summaries svc files) class_name =
      (classSummaryEntry svc files (class_name, c)).map (fun q => q.2) := by
    unfold lookupA
    rw [stage2Summaries_eq_filterMap, hfind]
  refine ⟨?_, ?_, ?_⟩
  · intro hs
    rw [hlook]
    unfold classSummaryEntry
    rw [if_neg (by simp [hs])]
    rfl
  · intro hs hcond
    rw [hlook]
    unfold classSummaryEntry
    rw [if_pos hs]
    simp only [hcond]
    rfl
  · intro hs hcond
    rw [hlook]
    unfold classSummaryEntry
    rw [if_pos hs]
    simp only [hcond, if_true]
    rfl

set_option maxRecDepth 8192 in
/-- C2 amended-theorem witness: the `Fails` class of the concrete file is
absent from the summaries under the always-raising service. -/
theorem c2_no_placeholder_recorded_witness :
    lookupA (stage2Summaries svcExn [c2File]) "Fails" = none :=
  (c2_no_placeholder_recorded svcExn [c2File] "Fails"
    { name := "Fails", type := "class", line := 3, code_snippet := some "class Fails: pass",
      methods := some [], file_path := some "c.py", language := some "python" }
    (by decide)).2.1 (by decide) (by decide)

/-! ## C3 -/

theorem str_append_ne_right (a b : String) (hb : b ≠ "") : a ++ b ≠ "" := by
  intro h
  apply hb
  have hd := congrArg String.data h
  rw [String.data_append] at hd
  rcases List.append_eq_nil.mp hd with ⟨_, h2⟩
  exact String.ext h2

theorem str_append_ne_left (a b : String) (ha : a ≠ "") : a ++ b ≠ "" := by
  intro h
  apply ha
  have hd := congrArg String.data h
  rw [String.data_append] at hd
  rcases List.append_eq_nil.mp hd with ⟨h1, _⟩
  exact String.ext h1

/-- The fallback-selection failure predicate of the readme loop (main.py
lines 530–540): the call raised, or returned no content, or returned an
empty/whitespace-only string. -/
def genCallFails : GenResult → Bool
  | .exn _ => true
  | .ok none => true
  | .ok (some response) => !(truthyStr response && truthyStr (pyStrip response))

theorem tryModels_none_of_fails (svc : GenSvc) (prompt : String) :
    ∀ models : List String,
      (∀ m ∈ models, genCallFails (svc ⟨prompt, m, 2000⟩) = true) →
      tryModels svc prompt models = none := by
  intro models
  induction models with
  | nil => intro _; rfl
  | cons m rest ih =>
      intro h
      have hm := h m (List.mem_cons_self m rest)
      have hrest := ih (fun m' hm' => h m' (List.mem_cons_of_mem m hm'))
      unfold tryModels
      split
      · exact hrest
      · exact hrest
      · next response heq =>
          rw [heq] at hm
          unfold genCallFails at hm
          simp only [Bool.not_eq_true'] at hm
          rw [hm]
          simp [hrest]

theorem tryModels_some_ne (svc : GenSvc) (prompt : String) :
    ∀ (models : List String) (t : String), tryModels svc prompt models = some t → t ≠ "" := by
  intro models
  induction models with
  | nil => intro t h; exact absurd h (by simp [tryModels])
  | cons m rest ih =>
      intro t h
      unfold tryModels at h
      split at h
      · exact ih t h
      · exact ih t h
      · next response heq =>
          by_cases hcond : (truthyStr response && truthyStr (pyStrip response)) = true
          · rw [if_pos hcond] at h
            cases h
            have := (Bool.and_eq_true .. ▸ hcond).2
            exact of_decide_eq_true this
          · rw [if_neg hcond] at h
            exact ih t h

/-- C3: (a) if the generation call fails (exception, missing content, or
empty/whitespace-only response) for every model in the ordered fallback
list, stage 3 with non-empty class summaries returns exactly the locally
templated fallback document, which is non-empty — no further generation
call is involved in producing it; (b) every run that reaches stage 3
(i.e. whose clone succeeded) stores a non-empty `readme_content`, and
when no class summaries exist it is the minimal templated document,
produced without any generation call. -/
theorem c3_readme_never_unset :
    (∀ (svc : GenSvc) (project_name : String) (stats : Stats)
        (class_summaries : List (String × String)),
      class_summaries ≠ [] →
      (∀ m ∈ models_to_try,
        genCallFails
          (svc ⟨readmePrompt project_name stats (summariesText class_summaries), m, 2000⟩) = true) →
      generate_project_readme svc project_name stats class_summaries =
        fallbackReadme project_name stats class_summaries ∧
      fallbackReadme project_name stats class_summaries ≠ "") ∧
    (∀ (svc : GenSvc) (project_name : String) (root : List FSTree),
      ∃ d, (run_full_analysis svc project_name (.ok root)).analysisWrite = some d ∧
        d.readme_content ≠ "" ∧
        (d.class_summaries = [] →
          d.readme_content =
            "# " ++ project_name ++ "\n\nNo classes were found to generate a detailed README.")) := by
  have hfallback_ne : ∀ (project_name : String) (stats : Stats)
      (class_summaries : List (String × String)),
      fallbackReadme project_name stats class_summaries ≠ "" := by
    intro project_name stats class_summaries
    unfold fallbackReadme
    apply str_append_ne_right
    decide
  have hgen_ne : ∀ (svc : GenSvc) (project_name : String) (stats : Stats)
      (class_summaries : List (String × String)),
      generate_project_readme svc project_name stats class_summaries ≠ "" := by
    intro svc project_name stats class_summaries
    unfold generate_project_readme
    by_cases hcs : class_summaries.isEmpty
    · rw [if_pos hcs]
      unfold basicReadme
      apply str_append_ne_right
      decide
    · rw [if_neg hcs]
      cases ht : tryModels svc
          (readmePrompt project_name stats (summariesText class_summaries)) models_to_try with
      | some t => exact tryModels_some_ne svc _ models_to_try t ht
      | none => exact hfallback_ne project_name stats class_summaries
  constructor
  · intro svc project_name stats class_summaries hne hfails
    have hempty : class_summaries.isEmpty = false := by
      cases class_summaries with
      | nil => exact absurd rfl hne
      | cons a l => rfl
    constructor
    · unfold generate_project_readme
      have hcond : ¬(class_summaries.isEmpty = true) := by
        rw [hempty]
        simp
      rw [if_neg hcond, tryModels_none_of_fails svc _ models_to_try hfails]
    · exact hfallback_ne project_name stats class_summaries
  · intro svc project_name root
    refine ⟨_, rfl, ?_, ?_⟩
    · show (if (stage2Summaries svc _).isEmpty then _ else
          generate_project_readme svc project_name _ (stage2Summaries svc _)) ≠ ""
      by_cases hcs : (stage2Summaries svc ((pyWalkDir root).foldl (walkStep svc) ([], ⟨0, 0, []⟩)).1).isEmpty
      · rw [if_pos hcs]
        apply str_append_ne_right
        decide
      · rw [if_neg hcs]
        exact hgen_ne svc project_name _ _
    · intro hnil
      show (if (stage2Summaries svc _).isEmpty then _ else
          generate_project_readme svc project_name _ (stage2Summaries svc _)) = _
      rw [if_pos ?_]
      have : stage2Summaries svc ((pyWalkDir root).foldl (walkStep svc) ([], ⟨0, 0, []⟩)).1 = [] := hnil
      rw [this]
      rfl

/-- Stats and summaries used to instantiate universally quantified
readme theorems at a concrete point. -/
def statsW : Stats := { total_files := 2, parsed_files := 1, languages := ["python"] }

set_option maxRecDepth 8192 in
/-- C3 witness: with the always-raising service (which fails every model
in the fallback list), the readme produced for concrete stats and one
class summary is exactly the local fallback template. -/
theorem c3_readme_never_unset_witness :
    generate_project_readme svcExn "proj" statsW [("Widget", "summary text")] =
      fallbackReadme "proj" statsW [("Widget", "summary text")] :=
  (c3_readme_never_unset.1 svcExn "proj" statsW [("Widget", "summary text")]
    (by decide) (fun m _ => by rfl)).1

/-! ## C5 -/

theorem setAdd_mem (l : List String) (x y : String) (h : y ∈ setAdd l x) : y ∈ l ∨ y = x := by
  unfold setAdd at h
  by_cases hx : x ∈ l
  · rw [if_pos hx] at h
    exact Or.inl h
  · rw [if_neg hx] at h
    rcases List.mem_append.mp h with h' | h'
    · exact Or.inl h'
    · exact Or.inr (List.mem_singleton.mp h')

theorem walk_fold_spec (svc : GenSvc) :
    ∀ (L : List (String × FileData)) (acc : List ParsedFile × Stats),
      ((L.foldl (walkStep svc) acc).2.total_files = acc.2.total_files + L.length) ∧
      ((L.foldl (walkStep svc) acc).2.parsed_files = acc.2.parsed_files +
        (L.filter (fun f => (parse_code_file f.1 f.2).isSome)).length) ∧
      ((L.foldl (walkStep svc) acc).1 = acc.1 ++
        L.filterMap (fun f => (parse_code_file f.1 f.2).map (stage1File svc))) ∧
      (∀ l, l ∈ (L.foldl (walkStep svc) acc).2.languages → l ∈ acc.2.languages ∨
        ∃ f ∈ L, ∃ pf, parse_code_file f.1 f.2 = some pf ∧ pf.language = l) := by
  intro L
  induction L with
  | nil =>
      intro acc
      refine ⟨by simp, by simp, by simp, ?_⟩
      intro l hl
      exact Or.inl hl
  | cons f L ih =>
      intro acc
      rw [List.foldl_cons]
      cases hp : parse_code_file f.1 f.2 with
      | none =>
          have hstep : walkStep svc acc f =
              (acc.1, { acc.2 with total_files := acc.2.total_files + 1 }) := by
            unfold walkStep
            rw [hp]
          rw [hstep]
          obtain ⟨h1, h2, h3, h4⟩ := ih (acc.1, { acc.2 with total_files := acc.2.total_files + 1 })
          refine ⟨?_, ?_, ?_, ?_⟩
          · rw [h1]
            simp
            omega
          · rw [h2]
            simp [List.filter_cons, hp]
          · rw [h3]
            simp [List.filterMap_cons, hp]
          · intro l hl
            rcases h4 l hl with hacc | ⟨g, hg, pf, hpf, hlang⟩
            · exact Or.inl hacc
            · exact Or.inr ⟨g, List.mem_cons_of_mem f hg, pf, hpf, hlang⟩
      | some pf =>
          have hstep : walkStep svc acc f =
              (acc.1 ++ [stage1File svc pf],
               { total_files := acc.2.total_files + 1,
                 parsed_files := acc.2.parsed_files + 1,
                 languages := setAdd acc.2.languages (stage1File svc pf).language }) := by
            unfold walkStep
            rw [hp]
          rw [hstep]
          obtain ⟨h1, h2, h3, h4⟩ := ih (acc.1 ++ [stage1File svc pf],
            { total_files := acc.2.total_files + 1,
              parsed_files := acc.2.parsed_files + 1,
              languages := setAdd acc.2.languages (stage1File svc pf).language })
          refine ⟨?_, ?_, ?_, ?_⟩
          · rw [h1]
            simp
            omega
          · rw [h2]
            simp [List.filter_cons, hp]
            omega
          · rw [h3]
            simp [List.filterMap_cons, hp]
          · intro l hl
            rcases h4 l hl with hacc | ⟨g, hg, pf', hpf', hlang⟩
            · rcases setAdd_mem _ _ _ hacc with hin | heq
              · exact Or.inl hin
              · refine Or.inr ⟨f, List.mem_cons_self f L, pf, hp, ?_⟩
                rw [heq]
                rfl
            · exact Or.inr ⟨g, List.mem_cons_of_mem f hg, pf', hpf', hlang⟩

/-- C5: for every run over a cloned tree, `total_files` equals the number
of walked files, `parsed_files` counts exactly the files whose
extraction succeeded (with non-empty constructs), the output file list is
exactly the successful extractions (in walk order, after stage 1), and
every observed language tag comes from a successfully parsed file.
Moreover `parse_code_file` yields nothing — so the file is counted but
never parsed or listed — for an unmapped extension, for a Python file
whose parse raised, for a Python file with zero constructs, and for a
JavaScript file with zero constructs. -/
theorem c5_file_accounting :
    (∀ (svc : GenSvc) (project_name : String) (root : List FSTree),
      ∃ d, (run_full_analysis svc project_name (.ok root)).analysisWrite = some d ∧
        d.stats.total_files = (pyWalkDir root).length ∧
        d.stats.parsed_files =
          ((pyWalkDir root).filter (fun f => (parse_code_file f.1 f.2).isSome)).length ∧
        d.files = (pyWalkDir root).filterMap
          (fun f => (parse_code_file f.1 f.2).map (stage1File svc)) ∧
        (∀ l ∈ d.stats.languages,
          ∃ f ∈ pyWalkDir root, ∃ pf, parse_code_file f.1 f.2 = some pf ∧ pf.language = l)) ∧
    (∀ (nm : String) (d : FileData),
      pyEndswith nm ".py" = false → pyEndswith nm ".js" = false → pyEndswith nm ".jsx" = false →
      parse_code_file nm d = none) ∧
    (∀ (nm : String) (d : FileData) (e : String),
      pyEndswith nm ".py" = true → d.pyTree = .error e → parse_code_file nm d = none) ∧
    (∀ (nm : String) (d : FileData) (tree : List PyStmt),
      pyEndswith nm ".py" = true → d.pyTree = .ok tree → parse_python_file tree = [] →
      parse_code_file nm d = none) ∧
    (∀ (nm : String) (d : FileData),
      pyEndswith nm ".py" = false → (pyEndswith nm ".js" = true ∨ pyEndswith nm ".jsx" = true) →
      parse_javascript_file d.text = [] → parse_code_file nm d = none) := by
  refine ⟨?_, ?_, ?_, ?_, ?_⟩
  · intro svc project_name root
    obtain ⟨h1, h2, h3, h4⟩ :=
      walk_fold_spec svc (pyWalkDir root) ([], ⟨0, 0, []⟩)
    refine ⟨_, rfl, by simpa using h1, by simpa using h2, by simpa using h3, ?_⟩
    intro l hl
    rcases h4 l hl with hacc | hsrc
    · exact absurd hacc (List.not_mem_nil l)
    · exact hsrc
  · intro nm d hpy hjs hjsx
    unfold parse_code_file
    rw [if_neg (by simp [hpy]), if_neg (by simp [hjs, hjsx])]
  · intro nm d e hpy herr
    unfold parse_code_file
    rw [if_pos hpy, herr]
  · intro nm d tree hpy hok hempty
    unfold parse_code_file
    rw [if_pos hpy, hok]
    simp [hempty]
  · intro nm d hpy hjs hempty
    unfold parse_code_file
    rw [if_neg (by simp [hpy]), if_pos (by rcases hjs with h | h <;> simp [h])]
    simp [hempty]

/-- C5 witness: a file with an unmapped extension is not parsed. -/
theorem c5_file_accounting_witness :
    parse_code_file "README.md" ⟨"", .ok []⟩ = none :=
  c5_file_accounting.2.1 "README.md" ⟨"", .ok []⟩ (by decide) (by decide) (by decide)

/-! ## C4 -/

/-- `a.py`: one top-level function `foo` and one class `Bar` with method
`baz`.  `pyTree` is what CPython's `ast.parse` produces for this text
(node names, 1-based line numbers, `get_source_segment` extents). -/
def aPyFile : FileData :=
  { text := "def foo():\n    pass\n\nclass Bar:\n    def baz(self):\n        pass\n",
    pyTree := .ok [
      .funcDef "foo" 1 (some "def foo():\n    pass") [],
      .classDef "Bar" 4 (some "class Bar:\n    def baz(self):\n        pass")
        [.funcDef "baz" 5 (some "def baz(self):\n        pass") []]] }

/-- `b.js`: a single top-level function `qux` with an empty body.
(`ast.parse` on this text raises, which the `.js` routing never
consults.) -/
def bJsFile : FileData :=
  { text := "function qux()\x7b\x7d", pyTree := .error "invalid syntax" }

/-- The cloned tree of the scenario: exactly the two files. -/
def scenarioRoot : List FSTree := [.file "a.py" aPyFile, .file "b.js" bJsFile]

set_option maxRecDepth 16384 in
/-- C4: analysing the two-file tree gives totalFiles 2, parsedFiles 2,
observed languages exactly python and javascript, and constructs
`foo` (function, no parent), `Bar` (class, methods [`baz`]), `baz`
(method, parent `Bar`), `qux` (function, no parent) — for any generation
service, since none of these fields depend on generated text. -/
theorem c4_two_file_scenario (svc : GenSvc) (project_name : String) :
    ∃ d, (run_full_analysis svc project_name (.ok scenarioRoot)).analysisWrite = some d ∧
      d.stats.total_files = 2 ∧
      d.stats.parsed_files = 2 ∧
      (∀ l, l ∈ d.stats.languages ↔ (l = "python" ∨ l = "javascript")) ∧
      d.files.map (fun f => (f.file_path, f.language,
        f.constructs.map (fun c => (c.name, c.type, c.parent_class,
          c.methods.map (fun ms => ms.map (fun m => m.name)))))) =
        [("a.py", "python",
          [("foo", "function", none, none),
           ("Bar", "class", none, some ["baz"]),
           ("baz", "method", some "Bar", none)]),
         ("b.js", "javascript",
          [("qux", "function", none, none)])] := by
  have hwalk : pyWalkDir scenarioRoot = [("a.py", aPyFile), ("b.js", bJsFile)] := by
    simp [pyWalkDir, pyWalkSubs, dirFilesOf, scenarioRoot]
  refine ⟨_, rfl, ?_, ?_, ?_, ?_⟩
  · rw [hwalk]
    rfl
  · rw [hwalk]
    rfl
  · intro l
    rw [hwalk]
    show l ∈ ["python", "javascript"] ↔ (l = "python" ∨ l = "javascript")
    simp
  · rw [hwalk]
    rfl

end CodeSage
